import Mathlib

/-!
Verification of the Smart-Document-Context-Handler repository.

The repository's source under `src/` contains the React front end
(`FileUpload`, `ChunkViewer`, `QueryInterface`, `TokenBudgetChart`,
`TierBadge`, `App`), the API client (`uploadDocument`, `queryDocument`),
the TypeScript data model (`types/index.ts`), and documentation.  The
backend engine (loader, tokenizer, budget allocator, tier classifier,
trimmer, chunker, ranker, context assembler) is described by the spec but
its code is not in `src/`; those parts are modelled from the spec and the
corresponding definitions say so in their doc comments.
-/

namespace SDCH

/-! ## Frontend data model (src/unnamed/part_003, types/index.ts) -/

/-- Embeds `ChunkInfo` from `types/index.ts` (`src/unnamed/part_003`):
`index`, `tokens` are numbers, `score` a floating-point relevance score,
modelled as a rational. -/
structure ChunkInfo where
  index : ℕ
  tokens : ℕ
  score : ℚ

/-- Embeds `TokenBudgetAllocations` from `types/index.ts`
(`src/unnamed/part_003`).  Token counts are modelled as integers so that
non-negativity is a statement, not a typing artifact. -/
structure TokenBudgetAllocations where
  system_prompt : ℤ
  conversation_history : ℤ
  response_buffer : ℤ
  document_content : ℤ

/-- Embeds `TokenBudgetDocument` from `types/index.ts`
(`src/unnamed/part_003`). -/
structure TokenBudgetDocument where
  original_tokens : ℤ
  allocated_tokens : ℤ
  max_tokens : ℤ
  utilization_pct : ℤ
  truncated : Bool

/-- Embeds `TokenBudget` from `types/index.ts` (`src/unnamed/part_003`). -/
structure TokenBudget where
  total_window : ℤ
  allocations : TokenBudgetAllocations
  document : TokenBudgetDocument

/-! ## API client (`src/frontend/tailwind.config.js`, second part:
`api/client.ts`) -/

/-- The HTTP request issued by `queryDocument` in `api/client.ts`: a POST
to `/query/` with JSON body `\x7bdoc_id, query, top_k\x7d`. -/
structure QueryRequest where
  path : String
  doc_id : String
  query : String
  top_k : ℕ
deriving DecidableEq

/-- Embeds `queryDocument(docId, query, topK = 10)` from `api/client.ts`:
it posts `\x7bdoc_id: docId, query, top_k: topK\x7d` to `/query/`, with
`topK` defaulting to 10 when the caller omits it. -/
def queryDocument (docId query : String) (topK : ℕ := 10) : QueryRequest :=
  { path := "/query/", doc_id := docId, query := query, top_k := topK }

/-- C8: for every call of `queryDocument(docId, query)` with the `top_k`
argument omitted, the POST `/query/` request body is exactly
`\x7bdoc_id: docId, query: query, top_k: 10\x7d`: the default `top_k` is 10. -/
theorem queryDocument_default_top_k (docId q : String) :
    queryDocument docId q =
      { path := "/query/", doc_id := docId, query := q, top_k := 10 } := rfl

/-! ## FileUpload component (src/unnamed/part_002) -/

/-- Embeds the `ACCEPTED_TYPES` map in `FileUpload.tsx`
(`src/unnamed/part_002` lines 7-14): each entry pairs a MIME-type key with
its list of extensions. -/
def ACCEPTED_TYPES : List (String × List String) :=
  [("text/plain", [".txt", ".md"]),
   ("application/pdf", [".pdf"]),
   ("application/vnd.openxmlformats-officedocument.wordprocessingml.document",
     [".docx"]),
   ("text/csv", [".csv"]),
   ("text/tab-separated-values", [".tsv"]),
   ("application/vnd.openxmlformats-officedocument.spreadsheetml.sheet",
     [".xlsx"])]

/-- The `maxSize` option passed to `useDropzone` in `FileUpload.tsx`:
`50 * 1024 * 1024` bytes. -/
def MAX_UPLOAD_BYTES : ℕ := 50 * 1024 * 1024

/-- A dropped file, reduced to the attributes the dropzone configuration
inspects: its reported MIME type, its name's extension, and its byte
size. -/
structure DropFile where
  mime : String
  ext : String
  size : ℕ
deriving DecidableEq

/-- Whether react-dropzone accepts a single file under the `FileUpload`
configuration: per attr-accept semantics the file passes the `accept`
option when its MIME type matches one of the `ACCEPTED_TYPES` keys or its
name ends with one of the listed extensions, and its size must not exceed
`maxSize`. -/
def fileAccepted (f : DropFile) : Bool :=
  ((ACCEPTED_TYPES.map Prod.fst).contains f.mime
      || ((ACCEPTED_TYPES.map Prod.snd).flatten).contains f.ext)
    && decide (f.size ≤ MAX_UPLOAD_BYTES)

/-- The accepted-files list react-dropzone hands to `onDrop` under the
`FileUpload` configuration: per-file filtering by `accept`/`maxSize`, and
`maxFiles := 1` rejects the whole drop when more than one file passes. -/
def dropzoneAccepted (files : List DropFile) : List DropFile :=
  if (files.filter fileAccepted).length ≤ 1 then files.filter fileAccepted
  else []

/-- Embeds `onDrop` from `FileUpload.tsx` (`src/unnamed/part_002` lines
24-43): it takes the first accepted file (`acceptedFiles[0]`) and issues
one upload request for it, or returns without a request when there is
none. -/
def onDrop (files : List DropFile) : Option DropFile :=
  (dropzoneAccepted files).head?

/-- C7 counterexample: the claim "accepts exactly files with extensions
.txt .md .pdf .docx .csv .tsv .xlsx" and "for an unsupported file no
upload request is issued" fail: a file whose browser-reported MIME type is
`text/plain` but whose extension `.text` is not in the accepted list
passes the dropzone `accept` check (MIME branch) and an upload request is
issued for it. -/
theorem fileUpload_extension_counterexample :
    fileAccepted { mime := "text/plain", ext := ".text", size := 1000 } = true
    ∧ ".text" ∉ [".txt", ".md", ".pdf", ".docx", ".csv", ".tsv", ".xlsx"]
    ∧ onDrop [{ mime := "text/plain", ext := ".text", size := 1000 }]
        = some { mime := "text/plain", ext := ".text", size := 1000 } :=
  ⟨by decide, by decide, by decide⟩

/-- C7 (amended): the upload component accepts exactly files whose MIME
type is one of the six `ACCEPTED_TYPES` keys or whose extension is one of
`.txt`, `.md`, `.pdf`, `.docx`, `.csv`, `.tsv`, `.xlsx`, accepts at most
one file per drop, and rejects every file larger than 50 MiB; for a file
passing neither the MIME nor the extension check, or oversize, no upload
request is issued. -/
theorem fileUpload_accept_spec :
    (∀ f : DropFile, fileAccepted f = true ↔
      ((f.mime ∈ ["text/plain", "application/pdf",
          "application/vnd.openxmlformats-officedocument.wordprocessingml.document",
          "text/csv", "text/tab-separated-values",
          "application/vnd.openxmlformats-officedocument.spreadsheetml.sheet"]
        ∨ f.ext ∈ [".txt", ".md", ".pdf", ".docx", ".csv", ".tsv", ".xlsx"])
        ∧ f.size ≤ 50 * 1024 * 1024))
    ∧ (∀ files : List DropFile, (dropzoneAccepted files).length ≤ 1)
    ∧ (∀ files : List DropFile, ∀ f, onDrop files = some f →
        fileAccepted f = true) := by
  refine ⟨?_, ?_, ?_⟩
  · intro f
    simp [fileAccepted, ACCEPTED_TYPES, MAX_UPLOAD_BYTES]
  · intro files
    unfold dropzoneAccepted
    split
    · omega
    · simp
  · intro files f h
    unfold onDrop dropzoneAccepted at h
    have hfil : f ∈ files.filter fileAccepted := by
      split at h
      · cases hl : files.filter fileAccepted with
        | nil => rw [hl] at h; exact absurd h (by simp)
        | cons a t =>
            rw [hl] at h
            simp only [List.head?_cons, Option.some.injEq] at h
            simp [h]
      · exact absurd h (by simp)
    exact List.of_mem_filter hfil

/-- C7 witness: a 1000-byte `text/plain` `.txt` file is uploaded, and the
uploaded file is indeed accepted by the configuration. -/
theorem fileUpload_accept_spec_witness :
    fileAccepted { mime := "text/plain", ext := ".txt", size := 1000 } = true :=
  fileUpload_accept_spec.2.2
    [{ mime := "text/plain", ext := ".txt", size := 1000 }]
    { mime := "text/plain", ext := ".txt", size := 1000 } (by decide)

/-! ## ChunkViewer component (src/unnamed/part_000) -/

/-- The parts of one chunk row that `ChunkViewer` renders: the index label
and token-count label are unconditional, the score label is conditional. -/
structure ChunkRowView where
  indexLabel : String
  tokensLabel : String
  scoreLabel : Option String

/-- Embeds the chunk-row rendering of `ChunkViewer.tsx`
(`src/unnamed/part_000` lines 57-70): `Chunk #\x7bc.index\x7d` and the token
count are always rendered; the score span is guarded by `c.score < 1`. -/
def renderChunkRow (c : ChunkInfo) : ChunkRowView :=
  { indexLabel := "Chunk #" ++ toString c.index
    tokensLabel := toString c.tokens ++ " tokens"
    scoreLabel :=
      if c.score < 1 then some ("score: " ++ toString c.score) else none }

/-- C9: in `ChunkViewer`, for every chunk entry, the chunk index and token
count are always rendered, but the score label is rendered if and only if
the score is `< 1`; a chunk whose score is `≥ 1` is displayed without its
score. -/
theorem chunkViewer_renders_score_iff (c : ChunkInfo) :
    (renderChunkRow c).indexLabel = "Chunk #" ++ toString c.index
    ∧ (renderChunkRow c).tokensLabel = toString c.tokens ++ " tokens"
    ∧ ((renderChunkRow c).scoreLabel.isSome = true ↔ c.score < 1) := by
  refine ⟨rfl, rfl, ?_⟩
  unfold renderChunkRow
  split <;> simp_all

/-! ## QueryInterface component (src/frontend/src/components/QueryInterface.tsx) -/

/-- The component state of `QueryInterface`: the `query`, `loading`,
`result` and `error` `useState` cells (the result payload is modelled
opaquely). -/
structure QueryState where
  query : String
  loading : Bool
  result : Option String
  error : Option String

/-- JavaScript's `String.prototype.trim`, as called by `handleQuery` and
the Search button guard: strip leading and trailing whitespace. -/
def jsTrim (s : String) : String :=
  ⟨((s.data.dropWhile Char.isWhitespace).reverse.dropWhile
      Char.isWhitespace).reverse⟩

/-- Embeds the `disabled` expression of the Search button in
`QueryInterface.tsx` line 70: `loading || !query.trim()`. -/
def searchDisabled (s : QueryState) : Bool :=
  s.loading || decide (jsTrim s.query = "")

/-- Embeds `handleQuery` from `QueryInterface.tsx` lines 19-31 up to its
suspension point: a blank query returns immediately; otherwise it sets
`loading`, clears `error`, and issues the `queryDocument` request. -/
def handleQuery (docId : String) (s : QueryState) :
    QueryState × Option QueryRequest :=
  if jsTrim s.query = "" then (s, none)
  else ({ s with loading := true, error := none },
    some (queryDocument docId s.query))

/-- C10: in `QueryInterface`, for every query string whose trimmed form is
empty, `handleQuery` returns without issuing any network request and
leaves the state (including `result` and `error`) unchanged, and the
Search button is disabled for such input. -/
theorem handleQuery_blank_is_noop (docId : String) (s : QueryState)
    (h : jsTrim s.query = "") :
    handleQuery docId s = (s, none) ∧ searchDisabled s = true := by
  constructor
  · simp [handleQuery, h]
  · simp [searchDisabled, h]

/-- C10 witness: a whitespace-only query leaves the state untouched,
issues no request, and the Search button is disabled. -/
theorem handleQuery_blank_is_noop_witness :
    handleQuery "doc-1"
        { query := "   ", loading := false, result := none, error := none }
      = ({ query := "   ", loading := false, result := none, error := none },
          none)
    ∧ searchDisabled
        { query := "   ", loading := false, result := none, error := none }
      = true :=
  handleQuery_blank_is_noop "doc-1"
    { query := "   ", loading := false, result := none, error := none }
    (by decide)

/-! ## Configuration defaults (spec §6, README environment table) -/

/-- Default `TIER1_MAX_TOKENS`. -/
def TIER1_MAX_TOKENS : ℕ := 12000

/-- Default `TIER2_MAX_TOKENS`. -/
def TIER2_MAX_TOKENS : ℕ := 25000

/-- Default `TIER3_MAX_TOKENS`. -/
def TIER3_MAX_TOKENS : ℕ := 50000

/-- Default `TOTAL_CONTEXT_WINDOW`. -/
def TOTAL_CONTEXT_WINDOW : ℕ := 200000

/-- Default `RESERVED_SYSTEM_TOKENS`. -/
def RESERVED_SYSTEM_TOKENS : ℕ := 2000

/-- Default `RESERVED_HISTORY_TOKENS`. -/
def RESERVED_HISTORY_TOKENS : ℕ := 10000

/-- Default `RESERVED_RESPONSE_TOKENS`. -/
def RESERVED_RESPONSE_TOKENS : ℕ := 4000

/-- Default `CHUNK_TARGET_TOKENS`. -/
def CHUNK_TARGET_TOKENS : ℕ := 512

/-- The document-content allocation under the default configuration:
`W − S − H − B = 184000`. -/
def documentAllocation : ℕ :=
  TOTAL_CONTEXT_WINDOW - RESERVED_SYSTEM_TOKENS - RESERVED_HISTORY_TOKENS
    - RESERVED_RESPONSE_TOKENS

/-! ## Tier classifier -/

/-- Modelled from the spec: the backend Tier Classifier
(`tier_classifier.py`) is not in `src/`.  Spec §3 (Tier record) and §4.4:
tier 1 if `tokens ≤ τ₁`, 2 if `≤ τ₂`, 3 if `≤ τ₃`, 4 otherwise, with the
default thresholds 12000 / 25000 / 50000. -/
def classify (n : ℕ) : ℕ :=
  if n ≤ TIER1_MAX_TOKENS then 1
  else if n ≤ TIER2_MAX_TOKENS then 2
  else if n ≤ TIER3_MAX_TOKENS then 3
  else 4

/-- Unfolds `classify` to its literal thresholds. -/
lemma classify_eq (n : ℕ) :
    classify n =
      if n ≤ 12000 then 1
      else if n ≤ 25000 then 2
      else if n ≤ 50000 then 3
      else 4 := rfl

/-- C3: for every non-negative token count `n`, `classify n` is tier 1 if
`n ≤ 12000`, tier 2 if `12000 < n ≤ 25000`, tier 3 if `25000 < n ≤ 50000`,
and tier 4 otherwise; consequently `classify` is monotone. -/
theorem classify_thresholds_and_monotone :
    (∀ n : ℕ,
      (n ≤ 12000 → classify n = 1)
      ∧ (12000 < n → n ≤ 25000 → classify n = 2)
      ∧ (25000 < n → n ≤ 50000 → classify n = 3)
      ∧ (50000 < n → classify n = 4))
    ∧ ∀ n₁ n₂ : ℕ, n₁ ≤ n₂ → classify n₁ ≤ classify n₂ := by
  constructor
  · intro n
    rw [classify_eq]
    refine ⟨?_, ?_, ?_, ?_⟩ <;> intros <;> split_ifs <;> omega
  · intro n₁ n₂ h
    rw [classify_eq, classify_eq]
    split_ifs <;> omega

/-- C3 witness: the four threshold cases and monotonicity at concrete
token counts, obtained from `classify_thresholds_and_monotone`. -/
theorem classify_thresholds_and_monotone_witness :
    classify 5000 = 1 ∧ classify 20000 = 2 ∧ classify 40000 = 3
    ∧ classify 60000 = 4 ∧ classify 5000 ≤ classify 60000 :=
  ⟨(classify_thresholds_and_monotone.1 5000).1 (by decide),
   (classify_thresholds_and_monotone.1 20000).2.1 (by decide) (by decide),
   (classify_thresholds_and_monotone.1 40000).2.2.1 (by decide) (by decide),
   (classify_thresholds_and_monotone.1 60000).2.2.2 (by decide),
   classify_thresholds_and_monotone.2 5000 60000 (by decide)⟩

/-! ## Budget allocator -/

/-- Modelled from the spec: the backend Budget Allocator
(`budget_allocator.py`) is not in `src/`.  Spec §3 (Budget) and §4.3:
`D = W − S − H − B` clamped to `≥ 0`, `d_granted = min(d_req, W−S−H−B)`,
`truncated = d_granted < d_req`, and the utilization percentage
`round(100·d_granted/max(d_req,1))`, computed here in integer arithmetic
as `(200·g + m) / (2·m)` with `m = max d_req 1`. -/
def allocateBudget (W S H B dreq : ℤ) : TokenBudget :=
  { total_window := W
    allocations :=
      { system_prompt := S
        conversation_history := H
        response_buffer := B
        document_content := max (W - S - H - B) 0 }
    document :=
      { original_tokens := dreq
        allocated_tokens := min dreq (max (W - S - H - B) 0)
        max_tokens := max (W - S - H - B) 0
        utilization_pct :=
          (200 * min dreq (max (W - S - H - B) 0) + max dreq 1)
            / (2 * max dreq 1)
        truncated := decide (min dreq (max (W - S - H - B) 0) < dreq) } }

/-- C2: for every Budget record produced by the Budget Allocator,
`total_window` equals the sum of the four allocations, and each of the
four allocations is non-negative.  The hypotheses hold for the repository
defaults `W, S, H, B = 200000, 2000, 10000, 4000` and any configuration in
which the fixed reserves fit in the window. -/
theorem budget_allocations_invariant (W S H B dreq : ℤ)
    (hS : 0 ≤ S) (hH : 0 ≤ H) (hB : 0 ≤ B) (hW : S + H + B ≤ W) :
    (allocateBudget W S H B dreq).total_window
      = (allocateBudget W S H B dreq).allocations.system_prompt
        + (allocateBudget W S H B dreq).allocations.conversation_history
        + (allocateBudget W S H B dreq).allocations.response_buffer
        + (allocateBudget W S H B dreq).allocations.document_content
    ∧ 0 ≤ (allocateBudget W S H B dreq).allocations.system_prompt
    ∧ 0 ≤ (allocateBudget W S H B dreq).allocations.conversation_history
    ∧ 0 ≤ (allocateBudget W S H B dreq).allocations.response_buffer
    ∧ 0 ≤ (allocateBudget W S H B dreq).allocations.document_content := by
  refine ⟨?_, hS, hH, hB, le_max_right _ _⟩
  have hmax : max (W - S - H - B) 0 = W - S - H - B := max_eq_left (by omega)
  simp only [allocateBudget, hmax]
  ring

/-- C2 witness: the invariant at the repository defaults with a
34200-token document. -/
theorem budget_allocations_invariant_witness :
    (allocateBudget 200000 2000 10000 4000 34200).total_window
      = (allocateBudget 200000 2000 10000 4000 34200).allocations.system_prompt
        + (allocateBudget 200000 2000 10000 4000
            34200).allocations.conversation_history
        + (allocateBudget 200000 2000 10000 4000
            34200).allocations.response_buffer
        + (allocateBudget 200000 2000 10000 4000
            34200).allocations.document_content
    ∧ 0 ≤ (allocateBudget 200000 2000 10000 4000
            34200).allocations.system_prompt
    ∧ 0 ≤ (allocateBudget 200000 2000 10000 4000
            34200).allocations.conversation_history
    ∧ 0 ≤ (allocateBudget 200000 2000 10000 4000
            34200).allocations.response_buffer
    ∧ 0 ≤ (allocateBudget 200000 2000 10000 4000
            34200).allocations.document_content :=
  budget_allocations_invariant 200000 2000 10000 4000 34200
    (by decide) (by decide) (by decide) (by decide)

/-- Integer division by a positive denominator is the floor of the
rational division. -/
lemma int_div_eq_floor_div (a b : ℤ) (hb : 0 < b) :
    a / b = ⌊(a : ℚ) / (b : ℚ)⌋ := by
  have hb' : ((b.toNat : ℤ) : ℚ) = (b : ℚ) := by
    rw [Int.toNat_of_nonneg hb.le]
  calc a / b = a / (b.toNat : ℤ) := by rw [Int.toNat_of_nonneg hb.le]
    _ = ⌊(a : ℚ) / ((b.toNat : ℕ) : ℚ)⌋ := (Rat.floor_intCast_div_natCast a b.toNat).symm
    _ = ⌊(a : ℚ) / (b : ℚ)⌋ := by rw [show ((b.toNat : ℕ) : ℚ) = (b : ℚ) by exact_mod_cast hb']

/-- C4: for every total window `W`, reserves `S, H, B` and requested
document length `d_req`, the Budget Allocator computes
`d_granted = min(d_req, W − S − H − B)`, sets `truncated` exactly when
`d_granted < d_req`, and reports
`utilization_pct = round(100·d_granted / max(d_req, 1))`. -/
theorem budget_allocator_formulas (W S H B dreq : ℤ)
    (hW : S + H + B ≤ W) :
    (allocateBudget W S H B dreq).document.allocated_tokens
      = min dreq (W - S - H - B)
    ∧ ((allocateBudget W S H B dreq).document.truncated = true
        ↔ (allocateBudget W S H B dreq).document.allocated_tokens < dreq)
    ∧ (allocateBudget W S H B dreq).document.utilization_pct
      = round ((100 * ((allocateBudget W S H B
          dreq).document.allocated_tokens : ℚ)) / ((max dreq 1 : ℤ) : ℚ)) := by
  have hmax : max (W - S - H - B) 0 = W - S - H - B := max_eq_left (by omega)
  simp only [allocateBudget, hmax]
  refine ⟨trivial, by simp, ?_⟩
  set g : ℤ := min dreq (W - S - H - B) with hg
  set m : ℤ := max dreq 1 with hm
  have hm1 : (1 : ℤ) ≤ m := le_max_right _ _
  have hm0 : ((m : ℚ)) ≠ 0 := by
    have : (0 : ℤ) < m := by omega
    exact_mod_cast this.ne'
  have h2m : (0 : ℤ) < 2 * m := by omega
  rw [int_div_eq_floor_div _ _ h2m, round_eq]
  congr 1
  push_cast
  field_simp
  ring

/-- C4 witness: the allocator formulas at the repository defaults with a
34200-token request, obtained from `budget_allocator_formulas`. -/
theorem budget_allocator_formulas_witness :
    (allocateBudget 200000 2000 10000 4000 34200).document.allocated_tokens
      = min 34200 (200000 - 2000 - 10000 - 4000)
    ∧ ((allocateBudget 200000 2000 10000 4000 34200).document.truncated = true
        ↔ (allocateBudget 200000 2000 10000 4000
            34200).document.allocated_tokens < 34200)
    ∧ (allocateBudget 200000 2000 10000 4000 34200).document.utilization_pct
      = round ((100 * ((allocateBudget 200000 2000 10000 4000
          34200).document.allocated_tokens : ℚ)) / ((max (34200 : ℤ) 1 : ℤ) : ℚ)) :=
  budget_allocator_formulas 200000 2000 10000 4000 34200 (by decide)

/-! ## Trimmer (spec §4.5)

The backend Trimmer (part of `chunking_engine.py`) is not in `src/`; it is
modelled from the spec: (a) collapse runs of whitespace (excluding
paragraph breaks) to single spaces, (b) remove lines matching boilerplate
patterns ("Page N of M", URL-only lines), (c) drop duplicate adjacent
paragraphs.  Text is a list of paragraphs, a paragraph a list of lines, a
line a list of characters, so paragraph boundaries are preserved by
construction. -/

/-- A line of canonical text. -/
abbrev Line := List Char

/-- A paragraph: the lines between two paragraph breaks. -/
abbrev Paragraph := List Line

/-- Canonical text as the Trimmer sees it: a list of paragraphs. -/
abbrev DocText := List Paragraph

/-- Removes the left element of every adjacent pair related by `R`,
keeping the rightmost element of each run. -/
def dedupBy (R : α → α → Bool) : List α → List α
  | [] => []
  | [a] => [a]
  | a :: b :: rest =>
      if R a b then dedupBy R (b :: rest) else a :: dedupBy R (b :: rest)

/-- Elements of `dedupBy R l` come from `l`. -/
lemma mem_of_mem_dedupBy (R : α → α → Bool) :
    ∀ l : List α, ∀ x, x ∈ dedupBy R l → x ∈ l := by
  intro l
  induction l with
  | nil => intro x hx; simp [dedupBy] at hx
  | cons a tail ih =>
      cases tail with
      | nil => intro x hx; simpa [dedupBy] using hx
      | cons b rest =>
          intro x hx
          rw [dedupBy] at hx
          split at hx
          · exact List.mem_cons_of_mem a (ih x hx)
          · rcases List.mem_cons.mp hx with h | h
            · exact h ▸ List.mem_cons_self a (b :: rest)
            · exact List.mem_cons_of_mem a (ih x h)

/-- A run-compatibility condition on `R`: relating to `c` through a
related `b` is the same as relating to `b`.  It holds for equality and for
the both-whitespace relation. -/
def RunCompat (R : α → α → Bool) : Prop :=
  ∀ a b c, R b c = true → R a c = R a b

/-- The head of `dedupBy R (b :: rest)` relates to any `a` exactly as `b`
does. -/
lemma dedupBy_cons_head (R : α → α → Bool) (hR : RunCompat R) :
    ∀ (rest : List α) (b : α), ∃ h t,
      dedupBy R (b :: rest) = h :: t ∧ ∀ a, R a h = R a b := by
  intro rest
  induction rest with
  | nil => intro b; exact ⟨b, [], by rw [dedupBy], fun a => rfl⟩
  | cons c rest' ih =>
      intro b
      rw [dedupBy]
      split
      · next hbc =>
          obtain ⟨h, t, heq, hh⟩ := ih c
          exact ⟨h, t, heq, fun a => (hh a).trans (hR a b c hbc)⟩
      · exact ⟨b, dedupBy R (c :: rest'), rfl, fun a => rfl⟩

/-- After `dedupBy R`, no adjacent pair is related by `R`. -/
lemma dedupBy_chain (R : α → α → Bool) (hR : RunCompat R) :
    ∀ l : List α, List.Chain' (fun a b => R a b = false) (dedupBy R l) := by
  intro l
  induction l with
  | nil => simp [dedupBy]
  | cons a tail ih =>
      cases tail with
      | nil => simp [dedupBy]
      | cons b rest =>
          rw [dedupBy]
          split
          · exact ih
          · next hab =>
              obtain ⟨h, t, heq, hhead⟩ := dedupBy_cons_head R hR rest b
              rw [heq]
              refine List.Chain'.cons ?_ (heq ▸ ih)
              rw [hhead a]
              exact Bool.not_eq_true _ ▸ hab

/-- `dedupBy R` leaves a list without `R`-related adjacent pairs
unchanged. -/
lemma dedupBy_eq_self (R : α → α → Bool) :
    ∀ l : List α, List.Chain' (fun a b => R a b = false) l →
      dedupBy R l = l := by
  intro l
  induction l with
  | nil => intro _; rfl
  | cons a tail ih =>
      cases tail with
      | nil => intro _; rfl
      | cons b rest =>
          intro hch
          rcases List.chain'_cons.mp hch with ⟨hab, htail⟩
          rw [dedupBy, if_neg (by simp [hab]), ih htail]

/-- `dedupBy R` is idempotent for run-compatible `R`. -/
lemma dedupBy_idem (R : α → α → Bool) (hR : RunCompat R) (l : List α) :
    dedupBy R (dedupBy R l) = dedupBy R l :=
  dedupBy_eq_self R _ (dedupBy_chain R hR l)

/-- A map whose function fixes every member of the list is the
identity. -/
lemma map_eq_self_of_mem {f : α → α} :
    ∀ l : List α, (∀ x ∈ l, f x = x) → l.map f = l := by
  intro l
  induction l with
  | nil => intro _; rfl
  | cons a t ih =>
      intro h
      simp only [List.map_cons]
      rw [h a (List.mem_cons_self a t),
        ih (fun x hx => h x (List.mem_cons_of_mem a hx))]

/-- Normalizes a tab to a space, so whitespace runs collapse to spaces. -/
def tabToSpace (c : Char) : Char := if c = '\t' then ' ' else c

/-- Both characters of an adjacent pair are spaces. -/
def spacePair (a b : Char) : Bool := decide (a = ' ') && decide (b = ' ')

/-- Collapses runs of whitespace in one line to single spaces: tabs become
spaces, then adjacent space pairs are deduplicated. -/
def collapseWhitespace (l : Line) : Line :=
  dedupBy spacePair (l.map tabToSpace)

/-- `spacePair` is run-compatible. -/
lemma spacePair_runCompat : RunCompat spacePair := by
  intro a b c h
  simp only [spacePair, Bool.and_eq_true, decide_eq_true_eq] at h ⊢
  simp [spacePair, h.1, h.2]

/-- `tabToSpace` is idempotent. -/
lemma tabToSpace_idem (c : Char) : tabToSpace (tabToSpace c) = tabToSpace c := by
  unfold tabToSpace
  split <;> simp

/-- `collapseWhitespace` is idempotent. -/
lemma collapseWhitespace_idem (l : Line) :
    collapseWhitespace (collapseWhitespace l) = collapseWhitespace l := by
  unfold collapseWhitespace
  have h1 : (dedupBy spacePair (l.map tabToSpace)).map tabToSpace
      = dedupBy spacePair (l.map tabToSpace) := by
    apply map_eq_self_of_mem
    intro x hx
    have hx' : x ∈ l.map tabToSpace :=
      mem_of_mem_dedupBy spacePair _ x hx
    rcases List.mem_map.mp hx' with ⟨y, _, rfl⟩
    exact tabToSpace_idem y
  rw [h1, dedupBy_idem spacePair spacePair_runCompat]

/-- Consumes a literal from the front of a line, returning the remainder
when the literal matches. -/
def afterLit : List Char → List Char → Option (List Char)
  | [], rest => some rest
  | _ :: _, [] => none
  | p :: ps, c :: cs => if p = c then afterLit ps cs else none

/-- Matches a "Page N of M" boilerplate line: the literal `Page `, one or
more digits, the literal ` of `, one or more digits. -/
def isPageNofM (l : Line) : Bool :=
  match afterLit ("Page ".toList) l with
  | none => false
  | some r1 =>
      if (r1.takeWhile Char.isDigit).isEmpty then false
      else
        match afterLit (" of ".toList) (r1.dropWhile Char.isDigit) with
        | none => false
        | some r3 => !r3.isEmpty && r3.all Char.isDigit

/-- Matches a URL-only line: it starts with an HTTP scheme and contains no
space. -/
def isUrlOnlyLine (l : Line) : Bool :=
  ("http://".toList.isPrefixOf l || "https://".toList.isPrefixOf l)
    && l.all (fun c => !decide (c = ' '))

/-- A line matching one of the configured boilerplate patterns. -/
def isBoilerplateLine (l : Line) : Bool := isPageNofM l || isUrlOnlyLine l

/-- Trims one paragraph: collapse whitespace in each line, then drop
boilerplate lines. -/
def trimPara (p : Paragraph) : Paragraph :=
  (p.map collapseWhitespace).filter (fun l => !isBoilerplateLine l)

/-- `trimPara` is idempotent. -/
lemma trimPara_idem (p : Paragraph) : trimPara (trimPara p) = trimPara p := by
  unfold trimPara
  have h1 : ((p.map collapseWhitespace).filter
        (fun l => !isBoilerplateLine l)).map collapseWhitespace
      = (p.map collapseWhitespace).filter (fun l => !isBoilerplateLine l) := by
    apply map_eq_self_of_mem
    intro x hx
    have hx' : x ∈ p.map collapseWhitespace := List.mem_of_mem_filter hx
    rcases List.mem_map.mp hx' with ⟨y, _, rfl⟩
    exact collapseWhitespace_idem y
  rw [h1]
  apply List.filter_eq_self.mpr
  intro a ha
  exact (List.mem_filter.mp ha).2

/-- Two adjacent paragraphs are duplicates. -/
def paragraphsEqual (p q : Paragraph) : Bool := decide (p = q)

/-- `paragraphsEqual` is run-compatible. -/
lemma paragraphsEqual_runCompat : RunCompat paragraphsEqual := by
  intro a b c h
  simp only [paragraphsEqual, decide_eq_true_eq] at h
  subst h
  rfl

/-- Modelled from the spec: the backend Trimmer (§4.5) is not in `src/`.
Collapse whitespace runs, remove boilerplate lines, drop duplicate
adjacent paragraphs. -/
def trim (t : DocText) : DocText :=
  dedupBy paragraphsEqual (t.map trimPara)

/-- C6: for every input text `x`, `trim (trim x) = trim x`: the Trimmer is
idempotent. -/
theorem trim_idempotent (x : DocText) : trim (trim x) = trim x := by
  unfold trim
  have h1 : (dedupBy paragraphsEqual (x.map trimPara)).map trimPara
      = dedupBy paragraphsEqual (x.map trimPara) := by
    apply map_eq_self_of_mem
    intro p hp
    have hp' : p ∈ x.map trimPara :=
      mem_of_mem_dedupBy paragraphsEqual _ p hp
    rcases List.mem_map.mp hp' with ⟨q, _, rfl⟩
    exact trimPara_idem q
  rw [h1, dedupBy_idem paragraphsEqual paragraphsEqual_runCompat]

/-! ## Context Assembler (spec §4.10)

The backend Context Assembler (`context_assembler.py`), Tokenizer,
Chunker and rankers are not in `src/`; they are modelled from the spec.
Canonical text is a list of tokens (the Tokenizer is exact and
deterministic, so a token list is its image); the token count of a text is
its length.  BM25 (§4.7) and the embedding cosine similarity (§4.8) are
transcendental (`ln`, vector norms); the claims verified here are
independent of the numeric score values, so both rankers are modelled as
deterministic, executable lexical-overlap scores with the spec's
tie-break (stable, ascending chunk index). -/

/-- A token of canonical text. -/
abbrev Token := String

/-- A chunk: dense ordinal index and its token list (spec §3, Chunk). -/
structure Chunk where
  index : ℕ
  text : List Token

/-- A document record as the assembler consumes it: canonical text, its
exact token count, the tier selected at upload, and whether an embedding
index was built (spec §3, Document). -/
structure Document where
  text : List Token
  tokenCount : ℕ
  tier : ℕ
  embeddingsAvailable : Bool

/-- Modelled from the spec: upload derives the token count from the
canonical text and the tier from the token count; both are immutable
thereafter. -/
def mkDocument (text : List Token) (avail : Bool) : Document :=
  { text := text
    tokenCount := text.length
    tier := classify text.length
    embeddingsAvailable := avail }

/-- The assembler's structured result (spec §4.10): context, its token
count, the chunks used as (index, tokens, score) triples, and notes. -/
structure AssembledContext where
  assembled_context : List Token
  token_count : ℕ
  chunks_used : List (ℕ × ℕ × ℚ)
  strategy_notes : String

/-- Modelled from the spec: the token-level Trimmer action used by the
tier-2 path (§4.5 at token granularity): drop whitespace-only and
empty tokens.  Only the fact that trimming never adds tokens matters to
the budget claims. -/
def trimTokens (ts : List Token) : List Token :=
  ts.filter (fun t => !decide (t = "" ∨ t = " "))

/-- Splits a list into consecutive pieces of `n` elements (the last piece
may be shorter). -/
def splitEvery (n : ℕ) (l : List α) : List (List α) :=
  match l with
  | [] => []
  | x :: xs =>
      if _h : n = 0 then []
      else (x :: xs).take n :: splitEvery n ((x :: xs).drop n)
termination_by l.length
decreasing_by
  simp only [List.length_drop, List.length_cons]
  omega

/-- Modelled from the spec: the Chunker (§4.6) at design level: the text
is cut into consecutive `CHUNK_TARGET_TOKENS`-token pieces with dense
indices starting at 0 (sentence alignment and overlap do not affect the
verified claims). -/
def chunkify (ts : List Token) : List Chunk :=
  (splitEvery CHUNK_TARGET_TOKENS ts).enum.map (fun p => ⟨p.1, p.2⟩)

/-- The executable stand-in for the chunk relevance score: how many of the
chunk's tokens occur in the query. -/
def termScore (query : List Token) (c : Chunk) : ℚ :=
  ((c.text.filter (fun t => query.contains t)).length : ℚ)

/-- The executable stand-in for the embedding cosine similarity: the
lexical overlap normalized by chunk length. -/
def embedScore (query : List Token) (c : Chunk) : ℚ :=
  termScore query c / ((c.text.length : ℚ) + 1)

/-- Inserts a scored chunk before the first element whose score does not
exceed it; equal-score chunks keep their original (ascending-index) order,
realizing the spec's deterministic tie-break. -/
def insertRanked (x : Chunk × ℚ) : List (Chunk × ℚ) → List (Chunk × ℚ)
  | [] => [x]
  | y :: ys => if y.2 ≤ x.2 then x :: y :: ys else y :: insertRanked x ys

/-- Ranks chunks by descending score via stable insertion sort. -/
def rankBy (score : Chunk → ℚ) (cs : List Chunk) : List (Chunk × ℚ) :=
  (cs.map (fun c => (c, score c))).foldr insertRanked []

/-- Inserts a scored chunk into a list ascending by chunk index. -/
def insertByIdx (x : Chunk × ℚ) : List (Chunk × ℚ) → List (Chunk × ℚ)
  | [] => [x]
  | y :: ys =>
      if x.1.index ≤ y.1.index then x :: y :: ys else y :: insertByIdx x ys

/-- Reorders accepted chunks into ascending original index (reading
order), as the spec's tier-3 assembly requires. -/
def sortByIdx (l : List (Chunk × ℚ)) : List (Chunk × ℚ) :=
  l.foldr insertByIdx []

/-- The spec's greedy fill (§4.10 tier 3): walk the candidates in rank
order, accept a chunk when its tokens still fit the budget and fewer than
`topK` chunks are accepted. -/
def greedyFill (budget topK : ℕ) :
    ℕ → ℕ → List (Chunk × ℚ) → List (Chunk × ℚ)
  | _, _, [] => []
  | total, k, c :: rest =>
      if k < topK ∧ total + c.1.text.length ≤ budget then
        c :: greedyFill budget topK (total + c.1.text.length) (k + 1) rest
      else
        greedyFill budget topK total k rest

/-- Total token count of a list of scored chunks. -/
def tokenSum (l : List (Chunk × ℚ)) : ℕ :=
  (l.map (fun p => p.1.text.length)).sum

/-- The greedy fill never exceeds the remaining budget. -/
lemma greedyFill_le (budget topK : ℕ) :
    ∀ (l : List (Chunk × ℚ)) (total k : ℕ), total ≤ budget →
      total + tokenSum (greedyFill budget topK total k l) ≤ budget := by
  intro l
  induction l with
  | nil => intro total k h; simpa [greedyFill, tokenSum] using h
  | cons c rest ih =>
      intro total k h
      rw [greedyFill]
      split
      · next hc =>
          have h2 := ih (total + c.1.text.length) (k + 1) hc.2
          simp only [tokenSum, List.map_cons, List.sum_cons] at h2 ⊢
          omega
      · exact ih total k h

/-- Index-ordered insertion preserves the total token count. -/
lemma tokenSum_insertByIdx (x : Chunk × ℚ) :
    ∀ l : List (Chunk × ℚ),
      tokenSum (insertByIdx x l) = x.1.text.length + tokenSum l := by
  intro l
  induction l with
  | nil => simp [insertByIdx, tokenSum]
  | cons y ys ih =>
      rw [insertByIdx]
      split
      · simp [tokenSum]
      · simp only [tokenSum, List.map_cons, List.sum_cons] at ih ⊢
        omega

/-- Reordering by index preserves the total token count. -/
lemma tokenSum_sortByIdx (l : List (Chunk × ℚ)) :
    tokenSum (sortByIdx l) = tokenSum l := by
  induction l with
  | nil => rfl
  | cons x xs ih =>
      simp only [sortByIdx, List.foldr_cons] at ih ⊢
      rw [tokenSum_insertByIdx]
      simp only [tokenSum, List.map_cons, List.sum_cons] at ih ⊢
      omega

/-- The tier-3 chunk separator (spec §4.10: accepted chunks are
"separated by `\n\n---\n\n`"), in the token model: the tokenizer renders
the literal as a short sequence of tokens. -/
def CHUNK_SEPARATOR : List Token := ["\n\n", "---", "\n\n"]

/-- Builds the result from ranked candidates: greedy fill to the document
allocation, reorder by ascending index, join the texts separated by
`CHUNK_SEPARATOR`, record the (index, tokens, score) triples.  Note the
greedy fill budgets only the chunk tokens (§4.10: "accept each chunk whose
token count plus running total ≤ D"), while the assembled context also
carries the separators. -/
def assembleFromCandidates (cands : List (Chunk × ℚ)) (topK : ℕ)
    (notes : String) : AssembledContext :=
  { assembled_context :=
      List.intercalate CHUNK_SEPARATOR
        ((sortByIdx (greedyFill documentAllocation topK 0 0 cands)).map
          (fun p => p.1.text))
    token_count :=
      (List.intercalate CHUNK_SEPARATOR
        ((sortByIdx (greedyFill documentAllocation topK 0 0 cands)).map
          (fun p => p.1.text))).length
    chunks_used :=
      (sortByIdx (greedyFill documentAllocation topK 0 0 cands)).map
        (fun p => (p.1.index, p.1.text.length, p.2))
    strategy_notes := notes }

/-- Length of an intercalation: the pieces plus one separator between each
consecutive pair. -/
lemma length_intercalate (sep : List Token) :
    ∀ xs : List (List Token),
      (List.intercalate sep xs).length
        = (xs.map List.length).sum + sep.length * (xs.length - 1) := by
  intro xs
  induction xs with
  | nil => simp [List.intercalate]
  | cons x ys ih =>
      cases ys with
      | nil => simp [List.intercalate]
      | cons y zs =>
          simp only [List.intercalate, List.intersperse_cons_cons,
            List.flatten_cons, List.length_append] at ih ⊢
          simp only [List.map_cons, List.sum_cons, List.length_cons] at ih ⊢
          simp only [Nat.succ_sub_one] at ih ⊢
          rw [ih]
          cases zs with
          | nil => simp; omega
          | cons z ws => simp only [Nat.mul_succ]; omega

/-- Index-ordered insertion adds one element. -/
lemma insertByIdx_length (x : Chunk × ℚ) :
    ∀ l : List (Chunk × ℚ), (insertByIdx x l).length = l.length + 1 := by
  intro l
  induction l with
  | nil => rfl
  | cons y ys ih =>
      rw [insertByIdx]
      split
      · rfl
      · simp [ih]

/-- Reordering by index preserves the number of chunks. -/
lemma sortByIdx_length (l : List (Chunk × ℚ)) :
    (sortByIdx l).length = l.length := by
  induction l with
  | nil => rfl
  | cons x xs ih =>
      simp only [sortByIdx, List.foldr_cons] at ih ⊢
      rw [insertByIdx_length, ih]
      simp

/-- A chunk-assembled result stays within the document allocation plus the
separators between the chunks used. -/
lemma assembleFromCandidates_le (cands : List (Chunk × ℚ)) (topK : ℕ)
    (notes : String) :
    (assembleFromCandidates cands topK notes).token_count
      ≤ documentAllocation
        + CHUNK_SEPARATOR.length
          * ((assembleFromCandidates cands topK notes).chunks_used.length - 1) := by
  unfold assembleFromCandidates
  simp only [length_intercalate, List.map_map, List.length_map]
  have hsum :
      ((sortByIdx (greedyFill documentAllocation topK 0 0 cands)).map
        (List.length ∘ fun p => p.1.text)).sum
      = tokenSum (sortByIdx (greedyFill documentAllocation topK 0 0 cands)) := rfl
  rw [hsum, tokenSum_sortByIdx]
  have h := greedyFill_le documentAllocation topK cands 0 0 (Nat.zero_le _)
  omega

/-- Concatenating the pieces of `splitEvery` restores the list (fuel
recursion on the length bound). -/
lemma splitEvery_flatten_aux (n : ℕ) (hn : 0 < n) :
    ∀ (k : ℕ) (l : List α), l.length ≤ k → (splitEvery n l).flatten = l := by
  intro k
  induction k with
  | zero =>
      intro l hl
      have h0 : l = [] := List.eq_nil_of_length_eq_zero (by omega)
      subst h0
      simp [splitEvery]
  | succ k ih =>
      intro l hl
      cases l with
      | nil => simp [splitEvery]
      | cons x xs =>
          rw [splitEvery, dif_neg (by omega)]
          rw [List.flatten_cons]
          rw [ih ((x :: xs).drop n)
            (by simp only [List.length_drop, List.length_cons] at hl ⊢; omega)]
          exact List.take_append_drop n (x :: xs)

/-- Concatenating the pieces of `splitEvery` restores the list. -/
lemma splitEvery_flatten (n : ℕ) (hn : 0 < n) (l : List α) :
    (splitEvery n l).flatten = l :=
  splitEvery_flatten_aux n hn l.length l le_rfl

/-- `splitEvery` on a list of length `k·n` yields exactly `k` pieces. -/
lemma splitEvery_length_of_mul (n : ℕ) (hn : 0 < n) :
    ∀ (k : ℕ) (l : List α), l.length = k * n → (splitEvery n l).length = k := by
  intro k
  induction k with
  | zero =>
      intro l hl
      have h0 : l = [] := List.eq_nil_of_length_eq_zero (by simpa using hl)
      subst h0
      simp [splitEvery]
  | succ k ih =>
      intro l hl
      rw [Nat.succ_mul] at hl
      cases l with
      | nil => simp at hl; omega
      | cons x xs =>
          rw [splitEvery, dif_neg (by omega)]
          simp only [List.length_cons]
          rw [ih ((x :: xs).drop n)
            (by simp only [List.length_drop, List.length_cons] at hl ⊢; omega)]

/-- The chunk texts are exactly the split pieces. -/
lemma chunkify_map_text (ts : List Token) :
    (chunkify ts).map (fun c => c.text) = splitEvery CHUNK_TARGET_TOKENS ts := by
  unfold chunkify
  rw [List.map_map]
  exact List.enum_map_snd _

/-- Chunking yields as many chunks as split pieces. -/
lemma chunkify_length (ts : List Token) :
    (chunkify ts).length = (splitEvery CHUNK_TARGET_TOKENS ts).length := by
  unfold chunkify
  simp

/-- Ranked insertion adds one element. -/
lemma insertRanked_length (x : Chunk × ℚ) :
    ∀ l : List (Chunk × ℚ), (insertRanked x l).length = l.length + 1 := by
  intro l
  induction l with
  | nil => rfl
  | cons y ys ih =>
      rw [insertRanked]
      split
      · rfl
      · simp [ih]

/-- Ranked insertion preserves the total token count. -/
lemma insertRanked_tokenSum (x : Chunk × ℚ) :
    ∀ l : List (Chunk × ℚ),
      tokenSum (insertRanked x l) = x.1.text.length + tokenSum l := by
  intro l
  induction l with
  | nil => simp [insertRanked, tokenSum]
  | cons y ys ih =>
      rw [insertRanked]
      split
      · simp [tokenSum]
      · simp only [tokenSum, List.map_cons, List.sum_cons] at ih ⊢
        omega

/-- Ranking preserves the number of chunks. -/
lemma rankBy_length (score : Chunk → ℚ) (cs : List Chunk) :
    (rankBy score cs).length = cs.length := by
  unfold rankBy
  induction cs with
  | nil => rfl
  | cons c cs ih =>
      simp only [List.map_cons, List.foldr_cons]
      rw [insertRanked_length, ih]
      simp

/-- Ranking preserves the total token count. -/
lemma rankBy_tokenSum (score : Chunk → ℚ) (cs : List Chunk) :
    tokenSum (rankBy score cs) = (cs.map (fun c => c.text.length)).sum := by
  unfold rankBy
  induction cs with
  | nil => rfl
  | cons c cs ih =>
      simp only [List.map_cons, List.foldr_cons]
      rw [insertRanked_tokenSum, ih]
      simp

/-- When every candidate fits the budget and the top-k bound, the greedy
fill accepts all of them. -/
lemma greedyFill_all (budget topK : ℕ) :
    ∀ (l : List (Chunk × ℚ)) (total k : ℕ),
      k + l.length ≤ topK → total + tokenSum l ≤ budget →
      greedyFill budget topK total k l = l := by
  intro l
  induction l with
  | nil => intro total k _ _; rfl
  | cons c rest ih =>
      intro total k h1 h2
      rw [greedyFill]
      have hsum : total + (c.1.text.length + tokenSum rest) ≤ budget := by
        simpa only [tokenSum, List.map_cons, List.sum_cons] using h2
      have hk : k < topK := by
        simp only [List.length_cons] at h1
        omega
      have hfit : total + c.1.text.length ≤ budget := by omega
      rw [if_pos (⟨hk, hfit⟩ : _ ∧ _)]
      rw [ih (total + c.1.text.length) (k + 1)
        (by simp only [List.length_cons] at h1; omega) (by omega)]

/-- Builds a direct-injection result: the context is the given text, no
chunks are used. -/
def assembleDirect (ctx : List Token) (notes : String) : AssembledContext :=
  { assembled_context := ctx
    token_count := ctx.length
    chunks_used := []
    strategy_notes := notes }

/-- Modelled from the spec: the Context Assembler dispatcher (§4.10).
Tier 1 injects the canonical text verbatim with no chunks.  Tier 2 trims;
if the result fits τ₁ it is injected as tier 1, if it fits the document
allocation it is injected with a note, otherwise the tier-3 path runs on
the trimmed text.  Tier 3 ranks chunks lexically and greedy-fills.  Tier 4
takes the top `3·top_k` by embedding similarity and greedy-fills among
them, falling back to the tier-3 path when embeddings are unavailable. -/
def assemble (doc : Document) (query : List Token) (topK : ℕ) :
    AssembledContext :=
  if doc.tier = 1 then
    assembleDirect doc.text "Full document injected directly."
  else if doc.tier = 2 then
    if (trimTokens doc.text).length ≤ TIER1_MAX_TOKENS then
      assembleDirect (trimTokens doc.text)
        "Trimmed below tier-1 threshold; injected directly."
    else if (trimTokens doc.text).length ≤ documentAllocation then
      assembleDirect (trimTokens doc.text) "Trimmed; injected directly."
    else
      assembleFromCandidates
        (rankBy (termScore query) (chunkify (trimTokens doc.text))) topK
        "Trimmed; tier-3 chunking fallback."
  else if doc.tier = 3 then
    assembleFromCandidates (rankBy (termScore query) (chunkify doc.text))
      topK "Chunked; lexically ranked greedy fill."
  else if doc.embeddingsAvailable then
    assembleFromCandidates
      ((rankBy (embedScore query) (chunkify doc.text)).take (3 * topK)) topK
      "Vector retrieval; greedy fill."
  else
    assembleFromCandidates (rankBy (termScore query) (chunkify doc.text))
      topK "Embeddings unavailable; lexical fallback."

/-- A tier-1 classification bounds the token count by τ₁. -/
lemma le_of_classify_eq_one {n : ℕ} (h : classify n = 1) : n ≤ 12000 := by
  rw [classify_eq] at h
  split_ifs at h <;> omega

/-- C1 (amended): for every uploaded document and every query, in every
tier, the token count of the assembled context returned by the Context
Assembler is at most the budget's document allocation (`document_content`,
184000 under the default configuration) plus the separators between the
chunks used; the chunk tokens alone never exceed the allocation, and in
the tiers that use no chunks the allocation itself bounds the output. -/
theorem assembler_output_within_allocation (text : List Token)
    (avail : Bool) (query : List Token) (topK : ℕ) :
    (assemble (mkDocument text avail) query topK).token_count
      ≤ documentAllocation
        + CHUNK_SEPARATOR.length
          * ((assemble (mkDocument text avail) query
              topK).chunks_used.length - 1) := by
  unfold assemble mkDocument
  simp only
  split_ifs with h1 h2 h3 h4 h5 h6
  · have hle : text.length ≤ 12000 := le_of_classify_eq_one h1
    simp only [assembleDirect, List.length_nil]
    have : (12000 : ℕ) ≤ documentAllocation := by decide
    omega
  · simp only [assembleDirect, List.length_nil]
    have : TIER1_MAX_TOKENS ≤ documentAllocation := by decide
    omega
  · simp only [assembleDirect, List.length_nil]
    omega
  · exact assembleFromCandidates_le _ _ _
  · exact assembleFromCandidates_le _ _ _
  · exact assembleFromCandidates_le _ _ _
  · exact assembleFromCandidates_le _ _ _

/-- C5: for every tier-1 document and every query, the assembled context
returned by the Context Assembler equals the document's canonical text and
`chunks_used` is the empty list. -/
theorem tier1_assembles_canonical_text (text : List Token) (avail : Bool)
    (query : List Token) (topK : ℕ) (h : classify text.length = 1) :
    (assemble (mkDocument text avail) query topK).assembled_context = text
    ∧ (assemble (mkDocument text avail) query topK).chunks_used = [] := by
  unfold assemble mkDocument
  simp [assembleDirect, h]

/-- C5 witness: a two-token document classifies as tier 1, is returned
verbatim, and uses no chunks. -/
theorem tier1_assembles_canonical_text_witness :
    (assemble (mkDocument ["hello", "world"] true) ["hello"]
        10).assembled_context = ["hello", "world"]
    ∧ (assemble (mkDocument ["hello", "world"] true) ["hello"]
        10).chunks_used = [] :=
  tier1_assembles_canonical_text ["hello", "world"] true ["hello"] 10
    (by decide)

/-- The assembler's dispatch lands in the lexical-fallback branch for a
tier-4 document without embeddings. -/
lemma assemble_tier4_noEmbed (doc : Document) (query : List Token)
    (topK : ℕ) (h1 : ¬doc.tier = 1) (h2 : ¬doc.tier = 2)
    (h3 : ¬doc.tier = 3) (h4 : doc.embeddingsAvailable = false) :
    assemble doc query topK
      = assembleFromCandidates
          (rankBy (termScore query) (chunkify doc.text)) topK
          "Embeddings unavailable; lexical fallback." := by
  unfold assemble
  rw [if_neg h1, if_neg h2, if_neg h3, if_neg (by simp [h4])]

/-- C1 counterexample: the claim "assembler output token count ≤
document allocation" fails as stated.  A 183808-token tier-4 document
(359 chunks of 512 tokens) without embeddings: the greedy fill accepts all
359 chunks, whose 183808 tokens fit the 184000-token allocation, but the
spec's 358 inter-chunk separators push the assembled context to 184882
tokens, exceeding the allocation. -/
theorem assembler_separator_counterexample :
    documentAllocation <
      (assemble (mkDocument (List.replicate (359 * 512) "w") false)
        [] 400).token_count := by
  rw [assemble_tier4_noEmbed _ _ _
      (by simp only [mkDocument, List.length_replicate]; decide)
      (by simp only [mkDocument, List.length_replicate]; decide)
      (by simp only [mkDocument, List.length_replicate]; decide)
      rfl]
  simp only [mkDocument]
  unfold assembleFromCandidates
  simp only
  have hTlen : (List.replicate (359 * 512) "w").length = 359 * 512 :=
    List.length_replicate _ _
  have hsum : tokenSum (rankBy (termScore [])
      (chunkify (List.replicate (359 * 512) "w"))) = 359 * 512 := by
    rw [rankBy_tokenSum]
    have h1 : (chunkify (List.replicate (359 * 512) "w")).map
          (fun c => c.text.length)
        = ((chunkify (List.replicate (359 * 512) "w")).map
            (fun c => c.text)).map List.length := by
      rw [List.map_map]
      rfl
    rw [h1, chunkify_map_text, ← List.length_flatten,
      splitEvery_flatten CHUNK_TARGET_TOKENS (by decide), hTlen]
  have hlen : (rankBy (termScore [])
      (chunkify (List.replicate (359 * 512) "w"))).length = 359 := by
    rw [rankBy_length, chunkify_length]
    exact splitEvery_length_of_mul CHUNK_TARGET_TOKENS (by decide) 359 _ hTlen
  have hacc : greedyFill documentAllocation 400 0 0
      (rankBy (termScore []) (chunkify (List.replicate (359 * 512) "w")))
      = rankBy (termScore []) (chunkify (List.replicate (359 * 512) "w")) :=
    greedyFill_all documentAllocation 400 _ 0 0
      (by rw [hlen]; decide) (by rw [hsum]; decide)
  rw [hacc, length_intercalate]
  have hmap : (((sortByIdx (rankBy (termScore [])
        (chunkify (List.replicate (359 * 512) "w")))).map
        (fun p => p.1.text)).map List.length).sum
      = tokenSum (sortByIdx (rankBy (termScore [])
          (chunkify (List.replicate (359 * 512) "w")))) := by
    rw [List.map_map]
    rfl
  rw [hmap, tokenSum_sortByIdx, hsum, List.length_map, sortByIdx_length, hlen]
  decide

end SDCH
